import Mathlib

/-!
Shallow embedding of `src/arm_bit_banding.h` (ARM Cortex-M3/M4 SRAM bit-banding
helpers) and verification of its specification claims.

Addresses and the C `uint32_t` arithmetic of the macros are embedded as `Nat`
with explicit reduction modulo `2^32 = 4294967296`.  The handle type `flag_t`
(a 32-bit pointer) is embedded as its address value; `INVALID_FLAG`
(`(flag_t)NULL`) is the address `0`.
-/

namespace ABB

/-- The modulus of C `uint32_t` arithmetic, `2^32`. -/
def U32 : Nat := 4294967296

/-- Truncation of a natural number to `uint32_t`. -/
def u32 (n : Nat) : Nat := n % U32

/-- Unsigned 32-bit subtraction `a - b` as computed on C `uint32_t` values:
the result wraps modulo `2^32` when `b > a`. -/
def usub32 (a b : Nat) : Nat := (a + (U32 - b % U32)) % U32

/-- Embedding of `INVALID_FLAG`, defined in the source as `(flag_t)NULL`:
the null address `0`. -/
def INVALID_FLAG : Nat := 0

/-- Embedding of `BIT_WORD_OFFSET(byte_offset, bit_num)`:
`((byte_offset)*32) + ((bit_num)*4)` in `uint32_t` arithmetic. -/
def BIT_WORD_OFFSET (byte_offset bit_num : Nat) : Nat :=
  u32 (byte_offset * 32 + bit_num * 4)

/-- Embedding of `BIT_WORD_ADDR(byte_offset, bit_num)`:
`(flag_t)(SRAM1_BB_BASE + BIT_WORD_OFFSET(byte_offset, bit_num))`.
The alias-region base `SRAM1_BB_BASE` is an externally supplied constant and is
passed here as the parameter `sram1_bb_base`. -/
def BIT_WORD_ADDR (sram1_bb_base byte_offset bit_num : Nat) : Nat :=
  u32 (sram1_bb_base + BIT_WORD_OFFSET byte_offset bit_num)

/-- Embedding of `BYTE_OFFSET(ADDR)`: `(uint32_t)ADDR - (uint32_t)SRAM1_BASE`,
an unsigned 32-bit difference.  The bit-band region base `SRAM1_BASE` is an
externally supplied constant and is passed here as the parameter
`sram1_base`. -/
def BYTE_OFFSET (sram1_base addr : Nat) : Nat := usub32 addr sram1_base

/-- Embedding of `MAKE_FLAG(ADDR, BIT)`:
`(flag_t)(BIT_WORD_ADDR(BYTE_OFFSET(ADDR), (BIT)))`. -/
def MAKE_FLAG (sram1_bb_base sram1_base addr bit : Nat) : Nat :=
  BIT_WORD_ADDR sram1_bb_base (BYTE_OFFSET sram1_base addr) bit

/-- Embedding of `abb_make(addr, bit)`:
`return (bit < 8) ? MAKE_FLAG(addr, bit) : INVALID_FLAG;`. -/
def abb_make (sram1_bb_base sram1_base addr bit : Nat) : Nat :=
  if bit < 8 then MAKE_FLAG sram1_bb_base sram1_base addr bit else INVALID_FLAG

/-! ### Hardware bit-band memory model

The four operations act on SRAM through the hardware bit-band aliasing.
Memory is a map from byte addresses to byte values. -/

/-- Modelled from the spec: the hardware bit-band mapping decodes an alias-word
address back to the byte it aliases — each source byte owns 32 bytes of alias
space, so the byte offset is the alias offset divided by 32.  The missing code
is the hardware memory behaviour behind the `volatile uint32_t*` accesses of
`abb_set`/`abb_clear`/`abb_tst`. -/
def decodeByte (sram1_bb_base flagAddr : Nat) : Nat :=
  usub32 flagAddr sram1_bb_base / 32

/-- Modelled from the spec: the hardware bit-band mapping decodes an alias-word
address to the bit position it aliases — one 4-byte alias word per bit, so the
bit number is the alias offset modulo 32, divided by 4.  Always below 8. -/
def decodeBit (sram1_bb_base flagAddr : Nat) : Nat :=
  usub32 flagAddr sram1_bb_base % 32 / 4

/-- Byte value with bit `i` forced to 1, the other bits kept. -/
def setBit8 (b i : Nat) : Nat := b % 2 ^ 8 ||| 2 ^ i

/-- Byte value with bit `i` forced to 0, the other bits kept. -/
def clearBit8 (b i : Nat) : Nat := b % 2 ^ 8 &&& ((2 ^ 8 - 1) ^^^ 2 ^ i)

/-- Modelled from the spec: a full-word store to an alias address updates
exactly the aliased bit of the aliased byte — bit 0 of the stored word gives
the new bit value — and leaves every other memory location unchanged. -/
def aliasWrite (sram1_bb_base sram1_base : Nat) (mem : Nat → Nat)
    (flagAddr v : Nat) : Nat → Nat :=
  fun a =>
    if a = sram1_base + decodeByte sram1_bb_base flagAddr then
      if v % 2 = 1 then setBit8 (mem a) (decodeBit sram1_bb_base flagAddr)
      else clearBit8 (mem a) (decodeBit sram1_bb_base flagAddr)
    else mem a

/-- Modelled from the spec: a full-word load from an alias address returns the
aliased bit of the aliased byte, as the word value 0 or 1. -/
def aliasRead (sram1_bb_base sram1_base : Nat) (mem : Nat → Nat)
    (flagAddr : Nat) : Nat :=
  if (mem (sram1_base + decodeByte sram1_bb_base flagAddr)).testBit
      (decodeBit sram1_bb_base flagAddr) then 1 else 0

/-- Embedding of `abb_set(flag)`: `*flag = 1;`, a single full-word store of 1
through the bit-band alias; returns the updated memory. -/
def abb_set (sram1_bb_base sram1_base : Nat) (mem : Nat → Nat) (flag : Nat) :
    Nat → Nat :=
  aliasWrite sram1_bb_base sram1_base mem flag 1

/-- Embedding of `abb_clear(flag)`: `*flag = 0;`, a single full-word store of 0
through the bit-band alias; returns the updated memory. -/
def abb_clear (sram1_bb_base sram1_base : Nat) (mem : Nat → Nat) (flag : Nat) :
    Nat → Nat :=
  aliasWrite sram1_bb_base sram1_base mem flag 0

/-- Embedding of the comparison in `abb_tst`: `*flag == 1` applied to the word
value `w` that the load returned. -/
def tstWord (w : Nat) : Bool := w == 1

/-- Embedding of `abb_tst(flag)`: `return *flag == 1;`, a single full-word
load through the bit-band alias compared against 1. -/
def abb_tst (sram1_bb_base sram1_base : Nat) (mem : Nat → Nat) (flag : Nat) :
    Bool :=
  tstWord (aliasRead sram1_bb_base sram1_base mem flag)

/-- State-passing run of `abb_tst`: the body performs one load and no store,
so the memory component of the outcome is the input memory. -/
def abb_tst_run (sram1_bb_base sram1_base : Nat) (mem : Nat → Nat)
    (flag : Nat) : Bool × (Nat → Nat) :=
  (abb_tst sram1_bb_base sram1_base mem flag, mem)

/-! ### Build-time configuration guard -/

/-- Reason the header refuses to build: one error per missing base constant,
matching the two `#error` directives of the source. -/
inductive ConfigError where
  | missingAliasBase : ConfigError
  | missingSourceBase : ConfigError
deriving DecidableEq

/-- Embedding of the build-time configuration guard at the top of the header:
`#if !defined(SRAM1_BB_BASE) #error ... #endif` followed by
`#if !defined(SRAM1_BASE) #error ... #endif`.  A configuration either defines
each base (`some`) or leaves it undefined (`none`); when one is missing the
translation unit fails to build with the corresponding error, and otherwise
the build proceeds with the configured pair. -/
def checkConfig (sram1_bb_base? sram1_base? : Option Nat) :
    Except ConfigError (Nat × Nat) :=
  match sram1_bb_base? with
  | none => Except.error ConfigError.missingAliasBase
  | some bb =>
    match sram1_base? with
    | none => Except.error ConfigError.missingSourceBase
    | some b => Except.ok (bb, b)

/-! ### Arithmetic helper lemmas -/

/-- Truncation to `uint32_t` is the identity below `2^32`. -/
theorem u32_eq_of_lt {n : Nat} (h : n < U32) : u32 n = n := by
  simp only [u32, U32] at *
  omega

/-- Unsigned 32-bit subtraction agrees with natural subtraction when the
operands are in range and no borrow occurs. -/
theorem usub32_eq_sub {a b : Nat} (hb : b < U32) (hba : b ≤ a) (h : a - b < U32) :
    usub32 a b = a - b := by
  simp only [usub32, U32] at *
  omega

/-- On an in-window cell (offset below the 1 MB bit-band window) with a valid
bit index and an alias window that fits below `2^32`, `abb_make` computes the
exact, non-wrapping alias address. -/
theorem abb_make_eval {bb base cell bit : Nat} (hbit : bit < 8) (hle : base ≤ cell)
    (hwin : cell - base < 1048576) (hbase : base < U32) (hbb : bb + 33554432 ≤ U32) :
    abb_make bb base cell bit = bb + (cell - base) * 32 + bit * 4 := by
  have hsub : usub32 cell base = cell - base := by
    refine usub32_eq_sub hbase hle ?_
    simp only [U32]; omega
  have h1 : (cell - base) * 32 + bit * 4 < U32 := by
    simp only [U32]; omega
  have h2 : bb + ((cell - base) * 32 + bit * 4) < U32 := by
    simp only [U32] at *; omega
  simp only [abb_make, if_pos hbit, MAKE_FLAG, BIT_WORD_ADDR, BIT_WORD_OFFSET, BYTE_OFFSET,
    hsub, u32_eq_of_lt h1, u32_eq_of_lt h2]
  omega

/-- Decoding a handle built by `abb_make` on an in-window cell with a valid
bit index recovers the cell offset and the bit index. -/
theorem decode_abb_make {bb base cell bit : Nat} (hbit : bit < 8) (hle : base ≤ cell)
    (hwin : cell - base < 1048576) (hbase : base < U32) (hbb : bb + 33554432 ≤ U32) :
    decodeByte bb (abb_make bb base cell bit) = cell - base ∧
    decodeBit bb (abb_make bb base cell bit) = bit := by
  rw [abb_make_eval hbit hle hwin hbase hbb]
  have hsub : usub32 (bb + (cell - base) * 32 + bit * 4) bb = (cell - base) * 32 + bit * 4 := by
    have h1 : bb < U32 := by simp only [U32] at *; omega
    have h3 : bb + (cell - base) * 32 + bit * 4 - bb < U32 := by
      simp only [U32] at *; omega
    have h2 := usub32_eq_sub h1 (by omega : bb ≤ bb + (cell - base) * 32 + bit * 4) h3
    omega
  constructor
  · simp only [decodeByte, hsub]; omega
  · simp only [decodeBit, hsub]; omega

/-- Reducing a byte value modulo 256 keeps bits below 8. -/
theorem testBit_mod_256 (b j : Nat) (hj : j < 8) : (b % 256).testBit j = b.testBit j := by
  rw [show (256 : Nat) = 2 ^ 8 by norm_num, Nat.testBit_mod_two_pow]
  simp [hj]

/-- Every bit below 8 of the byte mask 255 is set. -/
theorem testBit_255 (j : Nat) (hj : j < 8) : Nat.testBit 255 j = true := by
  rw [show (255 : Nat) = 2 ^ 8 - 1 by norm_num, Nat.testBit_two_pow_sub_one]
  simp [hj]

/-- Setting bit `i` makes bit `i` read as 1. -/
theorem testBit_setBit8_self (b i : Nat) : (setBit8 b i).testBit i = true := by
  simp [setBit8, Nat.testBit_or]

/-- Clearing bit `i` (for `i < 8`) makes bit `i` read as 0. -/
theorem testBit_clearBit8_self (b i : Nat) (h : i < 8) :
    (clearBit8 b i).testBit i = false := by
  simp [clearBit8, Nat.testBit_and, Nat.testBit_xor, testBit_255 i h, h]

/-- Setting bit `i` leaves every other bit `j < 8` unchanged. -/
theorem testBit_setBit8_other (b i j : Nat) (hj : j < 8) (hne : j ≠ i) :
    (setBit8 b i).testBit j = b.testBit j := by
  simp [setBit8, Nat.testBit_or, testBit_mod_256 b j hj, Nat.testBit_two_pow, hne.symm]

/-- Clearing bit `i` leaves every other bit `j < 8` unchanged. -/
theorem testBit_clearBit8_other (b i j : Nat) (hj : j < 8) (hne : j ≠ i) :
    (clearBit8 b i).testBit j = b.testBit j := by
  simp [clearBit8, Nat.testBit_and, Nat.testBit_xor, testBit_mod_256 b j hj,
    testBit_255 j hj, Nat.testBit_two_pow, hne.symm]

/-- A store through a handle built by `abb_make` on an in-window cell updates
that cell by setting or clearing the targeted bit. -/
theorem aliasWrite_make_at_cell {bb base cell bit : Nat} (mem : Nat → Nat) (v : Nat)
    (hbit : bit < 8) (hle : base ≤ cell) (hwin : cell - base < 1048576)
    (hbase : base < U32) (hbb : bb + 33554432 ≤ U32) :
    aliasWrite bb base mem (abb_make bb base cell bit) v cell =
      if v % 2 = 1 then setBit8 (mem cell) bit else clearBit8 (mem cell) bit := by
  obtain ⟨hB, hb⟩ := decode_abb_make hbit hle hwin hbase hbb
  simp only [aliasWrite, hB, hb, if_pos (by omega : cell = base + (cell - base))]

/-- A store through a handle built by `abb_make` on an in-window cell leaves
every other memory location unchanged. -/
theorem aliasWrite_make_other {bb base cell bit : Nat} (mem : Nat → Nat) (v a : Nat)
    (ha : a ≠ cell)
    (hbit : bit < 8) (hle : base ≤ cell) (hwin : cell - base < 1048576)
    (hbase : base < U32) (hbb : bb + 33554432 ≤ U32) :
    aliasWrite bb base mem (abb_make bb base cell bit) v a = mem a := by
  obtain ⟨hB, hb⟩ := decode_abb_make hbit hle hwin hbase hbb
  simp only [aliasWrite, hB, hb]
  rw [if_neg (by omega : ¬ a = base + (cell - base))]

/-- Reading through a handle built by `abb_make` on an in-window cell observes
exactly the targeted bit of that cell. -/
theorem abb_tst_make {bb base cell bit : Nat} (mem : Nat → Nat)
    (hbit : bit < 8) (hle : base ≤ cell) (hwin : cell - base < 1048576)
    (hbase : base < U32) (hbb : bb + 33554432 ≤ U32) :
    abb_tst bb base mem (abb_make bb base cell bit) = (mem cell).testBit bit := by
  obtain ⟨hB, hb⟩ := decode_abb_make hbit hle hwin hbase hbb
  simp only [abb_tst, aliasRead, hB, hb,
    show base + (cell - base) = cell by omega]
  cases h : (mem cell).testBit bit <;> simp [h, tstWord]

/-! ### Claim C1 -/

/-- C1: for every `cellAddress` and every `bitIndex` in `0..7`, `abb_make`
returns the handle whose 32-bit address equals
`SRAM1_BB_BASE + (cellAddress - SRAM1_BASE) * 32 + bitIndex * 4`, the byte
offset being the unsigned 32-bit difference and the address arithmetic being
`uint32_t` arithmetic; in particular with `SRAM1_BASE = 0x20000000`,
`SRAM1_BB_BASE = 0x22000000`, `cellAddress = 0x20000004` and `bitIndex = 3`
the handle address is `0x2200008C`. -/
theorem C1_make_address_formula (bb base cell bit : Nat) (hbit : bit < 8) :
    abb_make bb base cell bit = u32 (bb + usub32 cell base * 32 + bit * 4) ∧
    abb_make 0x22000000 0x20000000 0x20000004 3 = 0x2200008C := by
  constructor
  · simp only [abb_make, if_pos hbit, MAKE_FLAG, BIT_WORD_ADDR, BIT_WORD_OFFSET, BYTE_OFFSET,
      u32, U32]
    omega
  · decide

/-- Witness for C1 at the concrete scenario of the claim. -/
theorem C1_make_address_formula_witness :
    abb_make 0x22000000 0x20000000 0x20000004 3 =
      u32 (0x22000000 + usub32 0x20000004 0x20000000 * 32 + 3 * 4) :=
  (C1_make_address_formula 0x22000000 0x20000000 0x20000004 3 (by decide)).1

/-! ### Claim C2 -/

/-- C2: for every `cellAddress` and every `bitIndex ≥ 8`, `abb_make` returns
the `INVALID_FLAG` sentinel and never a computed address; the bit-index check
is the only validated condition, every `bitIndex < 8` yielding the computed
`MAKE_FLAG` address. -/
theorem C2_invalid_bit_index (bb base cell bit : Nat) :
    (8 ≤ bit → abb_make bb base cell bit = INVALID_FLAG) ∧
    (bit < 8 → abb_make bb base cell bit = MAKE_FLAG bb base cell bit) := by
  constructor
  · intro h
    simp only [abb_make, if_neg (by omega : ¬ bit < 8)]
  · intro h
    simp only [abb_make, if_pos h]

/-- Witness for C2 at `bitIndex = 8`. -/
theorem C2_invalid_bit_index_witness :
    abb_make 0x22000000 0x20000000 0x20000004 8 = INVALID_FLAG :=
  (C2_invalid_bit_index 0x22000000 0x20000000 0x20000004 8).1 (by decide)

/-! ### Claim C7 -/

/-- C7: `abb_make` is deterministic: two calls with identical inputs (and the
same fixed `SRAM1_BB_BASE`/`SRAM1_BASE` constants) return equal handles.  In
the embedding `abb_make` is a pure function of exactly these four values and
of no other state. -/
theorem C7_make_deterministic (bb base cell bit cell' bit' : Nat)
    (hc : cell = cell') (hb : bit = bit') :
    abb_make bb base cell bit = abb_make bb base cell' bit' := by
  rw [hc, hb]

/-- Witness for C7 at a concrete input. -/
theorem C7_make_deterministic_witness :
    abb_make 0x22000000 0x20000000 0x20000004 3 =
      abb_make 0x22000000 0x20000000 0x20000004 3 :=
  C7_make_deterministic 0x22000000 0x20000000 0x20000004 3 0x20000004 3 rfl rfl

/-! ### Claim C9 -/

/-- C9: all address arithmetic in `abb_make` is unsigned 32-bit arithmetic
modulo `2^32`: the result is always below `2^32` and equals the wrapped value
of `SRAM1_BB_BASE + (cellAddress - SRAM1_BASE) * 32 + bitIndex * 4`; for a
cell below `SRAM1_BASE` the offset wraps (concrete: cell `0x1FFFFFFF`, bit `0`
yields `0x21FFFFE0`); and a wrapped result can equal the null sentinel
(concrete: cell `0x26F00000`, bit `0` yields `0 = INVALID_FLAG`). -/
theorem C9_uint32_wraparound (bb base cell bit : Nat) :
    abb_make bb base cell bit < U32 ∧
    (bit < 8 → abb_make bb base cell bit = (bb + usub32 cell base * 32 + bit * 4) % U32) ∧
    abb_make 0x22000000 0x20000000 0x1FFFFFFF 0 = 0x21FFFFE0 ∧
    abb_make 0x22000000 0x20000000 0x26F00000 0 = INVALID_FLAG := by
  refine ⟨?_, ?_, by decide, by decide⟩
  · simp only [abb_make, MAKE_FLAG, BIT_WORD_ADDR, BIT_WORD_OFFSET, BYTE_OFFSET, usub32,
      u32, U32, INVALID_FLAG]
    split <;> omega
  · intro hbit
    simp only [abb_make, if_pos hbit, MAKE_FLAG, BIT_WORD_ADDR, BIT_WORD_OFFSET, BYTE_OFFSET,
      u32, U32]
    omega

/-- Witness for C9: the wrap-to-null example, through the general formula. -/
theorem C9_uint32_wraparound_witness :
    abb_make 0x22000000 0x20000000 0x26F00000 0 =
      (0x22000000 + usub32 0x26F00000 0x20000000 * 32 + 0 * 4) % U32 :=
  (C9_uint32_wraparound 0x22000000 0x20000000 0x26F00000 0).2.1 (by decide)

/-! ### Claim C3 -/

/-- C3: for every valid handle (from `abb_make` with `bitIndex` in `0..7` on
an in-window cell), `set` then `test` returns true; `clear` then `test`
returns false; and `set`, `set`, then `test` still returns true. -/
theorem C3_set_clear_tst_roundtrip (bb base cell bit : Nat) (mem : Nat → Nat)
    (hbit : bit < 8) (hle : base ≤ cell) (hwin : cell - base < 1048576)
    (hbase : base < U32) (hbb : bb + 33554432 ≤ U32) :
    abb_tst bb base (abb_set bb base mem (abb_make bb base cell bit))
      (abb_make bb base cell bit) = true ∧
    abb_tst bb base (abb_clear bb base mem (abb_make bb base cell bit))
      (abb_make bb base cell bit) = false ∧
    abb_tst bb base
      (abb_set bb base (abb_set bb base mem (abb_make bb base cell bit))
        (abb_make bb base cell bit))
      (abb_make bb base cell bit) = true := by
  refine ⟨?_, ?_, ?_⟩ <;>
    rw [abb_tst_make _ hbit hle hwin hbase hbb]
  · rw [abb_set, aliasWrite_make_at_cell mem 1 hbit hle hwin hbase hbb]
    simp [testBit_setBit8_self]
  · rw [abb_clear, aliasWrite_make_at_cell mem 0 hbit hle hwin hbase hbb]
    simp [testBit_clearBit8_self _ _ hbit]
  · rw [abb_set, aliasWrite_make_at_cell _ 1 hbit hle hwin hbase hbb]
    simp [testBit_setBit8_self]

/-- Witness for C3 at a concrete handle and memory. -/
theorem C3_set_clear_tst_roundtrip_witness :
    abb_tst 0x22000000 0x20000000
      (abb_set 0x22000000 0x20000000 (fun _ => 0)
        (abb_make 0x22000000 0x20000000 0x20000004 3))
      (abb_make 0x22000000 0x20000000 0x20000004 3) = true :=
  (C3_set_clear_tst_roundtrip 0x22000000 0x20000000 0x20000004 3 (fun _ => 0)
    (by decide) (by decide) (by decide) (by decide) (by decide)).1

/-! ### Claim C4 -/

/-- C4: for a valid handle for bit `bit` of an in-window cell, `set` and
`clear` mutate only that bit of that cell: every other bit `j < 8` of the
cell, observed by ordinary byte access, keeps its value, and every other
memory location is untouched. -/
theorem C4_single_bit_frame (bb base cell bit j : Nat) (mem : Nat → Nat)
    (hbit : bit < 8) (hj : j < 8) (hne : j ≠ bit)
    (hle : base ≤ cell) (hwin : cell - base < 1048576)
    (hbase : base < U32) (hbb : bb + 33554432 ≤ U32) :
    ((abb_set bb base mem (abb_make bb base cell bit)) cell).testBit j =
      (mem cell).testBit j ∧
    ((abb_clear bb base mem (abb_make bb base cell bit)) cell).testBit j =
      (mem cell).testBit j ∧
    (∀ a, a ≠ cell →
      (abb_set bb base mem (abb_make bb base cell bit)) a = mem a ∧
      (abb_clear bb base mem (abb_make bb base cell bit)) a = mem a) := by
  refine ⟨?_, ?_, fun a ha => ⟨?_, ?_⟩⟩
  · rw [abb_set, aliasWrite_make_at_cell mem 1 hbit hle hwin hbase hbb]
    simp [testBit_setBit8_other _ _ _ hj hne]
  · rw [abb_clear, aliasWrite_make_at_cell mem 0 hbit hle hwin hbase hbb]
    simp [testBit_clearBit8_other _ _ _ hj hne]
  · rw [abb_set, aliasWrite_make_other mem 1 a ha hbit hle hwin hbase hbb]
  · rw [abb_clear, aliasWrite_make_other mem 0 a ha hbit hle hwin hbase hbb]

/-- Witness for C4: setting bit 3 leaves bit 5 of the cell unchanged. -/
theorem C4_single_bit_frame_witness :
    ((abb_set 0x22000000 0x20000000 (fun _ => 0)
        (abb_make 0x22000000 0x20000000 0x20000004 3)) 0x20000004).testBit 5 =
      ((fun _ => (0 : Nat)) 0x20000004).testBit 5 :=
  (C4_single_bit_frame 0x22000000 0x20000000 0x20000004 3 5 (fun _ => 0)
    (by decide) (by decide) (by decide) (by decide) (by decide)
    (by decide) (by decide)).1

/-! ### Claim C5 -/

/-- C5: on in-window inputs with bit indices in `0..7` the handle mapping is
injective — distinct `(cellAddress, bitIndex)` pairs give distinct addresses —
and for a fixed cell consecutive bit indices give addresses exactly 4 apart;
in particular the handles for bits 0 and 1 of the same cell differ by 4. -/
theorem C5_handle_injective (bb base cell cell' b b' : Nat)
    (hb : b < 8) (hb' : b' < 8)
    (hc : base ≤ cell) (hc' : base ≤ cell')
    (hw : cell - base < 1048576) (hw' : cell' - base < 1048576)
    (hbase : base < U32) (hbb : bb + 33554432 ≤ U32) :
    ((cell, b) ≠ (cell', b') →
      abb_make bb base cell b ≠ abb_make bb base cell' b') ∧
    (∀ k, k < 7 →
      abb_make bb base cell (k + 1) = abb_make bb base cell k + 4) ∧
    abb_make bb base cell 1 = abb_make bb base cell 0 + 4 := by
  refine ⟨fun hne heq => ?_, fun k hk => ?_, ?_⟩
  · rw [abb_make_eval hb hc hw hbase hbb, abb_make_eval hb' hc' hw' hbase hbb] at heq
    have h : cell = cell' ∧ b = b' := by omega
    exact hne (by rw [h.1, h.2])
  · rw [abb_make_eval (by omega : k + 1 < 8) hc hw hbase hbb,
      abb_make_eval (by omega : k < 8) hc hw hbase hbb]
    omega
  · rw [abb_make_eval (by omega : (1 : Nat) < 8) hc hw hbase hbb,
      abb_make_eval (by omega : (0 : Nat) < 8) hc hw hbase hbb]

/-- Witness for C5: bits 0 and 1 of a concrete cell differ by 4. -/
theorem C5_handle_injective_witness :
    abb_make 0x22000000 0x20000000 0x20000004 1 =
      abb_make 0x22000000 0x20000000 0x20000004 0 + 4 :=
  (C5_handle_injective 0x22000000 0x20000000 0x20000004 0x20000004 0 0
    (by decide) (by decide) (by decide) (by decide) (by decide) (by decide)
    (by decide) (by decide)).2.2

/-! ### Claim C6 -/

/-- C6: `abb_tst` performs a single full-word read of the handle's address and
returns true exactly when the word read equals 1; any other word value,
including nonzero values different from 1, yields false — strict equality, not
truthiness. -/
theorem C6_tst_strict_equality (bb base : Nat) (mem : Nat → Nat) (flag w : Nat) :
    (abb_tst bb base mem flag = true ↔ aliasRead bb base mem flag = 1) ∧
    tstWord 1 = true ∧
    (w ≠ 1 → tstWord w = false) := by
  refine ⟨?_, rfl, fun h => ?_⟩
  · simp [abb_tst, tstWord]
  · simp [tstWord, h]

/-- Witness for C6: the nonzero word 2 reads back as false. -/
theorem C6_tst_strict_equality_witness : tstWord 2 = false :=
  (C6_tst_strict_equality 0 0 (fun _ => 0) 0 2).2.2 (by decide)

/-! ### Claim C8 -/

/-- C8: if either region base constant is not supplied at build time, the
translation unit refuses to build with the corresponding configuration error;
only a configuration with both bases defined builds. -/
theorem C8_config_build_guard (bb? srcb? : Option Nat) :
    (bb? = none → checkConfig bb? srcb? = Except.error ConfigError.missingAliasBase) ∧
    (srcb? = none → ∃ e, checkConfig bb? srcb? = Except.error e) ∧
    (∀ bb b, checkConfig (some bb) (some b) = Except.ok (bb, b)) := by
  refine ⟨fun h => ?_, fun h => ?_, fun bb b => rfl⟩
  · subst h; rfl
  · subst h
    cases bb? with
    | none => exact ⟨ConfigError.missingAliasBase, rfl⟩
    | some bb => exact ⟨ConfigError.missingSourceBase, rfl⟩

/-- Witness for C8: a configuration missing the alias base fails to build. -/
theorem C8_config_build_guard_witness :
    checkConfig none (some 0x20000000) = Except.error ConfigError.missingAliasBase :=
  (C8_config_build_guard none (some 0x20000000)).1 rfl

/-! ### Claim C10 -/

/-- C10: `abb_tst` is observably read-only: running it leaves every memory
location unchanged, so a second run on the resulting memory returns the same
boolean as the first. -/
theorem C10_tst_readonly (bb base : Nat) (mem : Nat → Nat) (flag : Nat) :
    (abb_tst_run bb base mem flag).2 = mem ∧
    (abb_tst_run bb base ((abb_tst_run bb base mem flag).2) flag).1 =
      (abb_tst_run bb base mem flag).1 :=
  ⟨rfl, rfl⟩

end ABB
